import Mathlib

/-!
Shallow embedding of the OSCC CaseHistoryApp business logic
(src/CaseHistoryApp), used to check the natural-language specification
against the code.

Python strings are modelled as lists of characters (PyStr); pandas
DataFrames as lists of typed records; the flat-file table store as a
function from table names to row lists.  Machine integers do not occur:
all arithmetic in the app is on small non-negative counters, modelled
as Nat.
-/

namespace OSCC


/-- Python strings, modelled as lists of characters. -/
abbrev PyStr := List Char

/-- Decimal digit character for a digit value (0 ≤ d ≤ 9 in use). -/
def digitChar (d : Nat) : Char := Char.ofNat (48 + d)

/-- True iff the character is an ASCII decimal digit, as used by int() parsing. -/
def isDigitCh (c : Char) : Bool := 48 ≤ c.toNat && c.toNat ≤ 57

/-- ASCII whitespace test used to model Python str.strip() / int() trimming. -/
def isSpaceCh (c : Char) : Bool := c = ' ' || c = '\t' || c = '\n' || c = '\r'

/-- Decimal digits of n, most significant first; empty for n = 0.
The first argument is structural-recursion fuel, sufficient when it is ≥ n. -/
def digitsAux : Nat → Nat → List Char
  | 0, _ => []
  | fuel + 1, n => if n = 0 then [] else digitsAux fuel (n / 10) ++ [digitChar (n % 10)]

/-- Decimal representation of a Nat, modelling Python str(n) for n ≥ 0. -/
def natRepr (n : Nat) : List Char := if n = 0 then ['0'] else digitsAux n n

/-- One step of decimal accumulation while parsing digits. -/
def pdStep (a : Nat) (c : Char) : Nat := 10 * a + (c.toNat - 48)

/-- Value of a digit string, most significant first. -/
def parseDigits (s : List Char) : Nat := s.foldl pdStep 0

/-- Python f-string zero padding to a minimum width w, as in f-format 0wd. -/
def padRepr (w n : Nat) : List Char :=
  List.replicate (w - (natRepr n).length) '0' ++ natRepr n

/-- Python str.strip(): drop leading and trailing whitespace. -/
def pyStrip (s : PyStr) : PyStr :=
  ((s.dropWhile isSpaceCh).reverse.dropWhile isSpaceCh).reverse

/-- Drop one leading plus sign, as accepted by Python int(). -/
def stripPlus (s : PyStr) : PyStr :=
  match s with
  | c :: r => if c = '+' then r else c :: r
  | [] => []

/-- Python int(s) for the non-negative case: optional surrounding whitespace,
optional leading plus, then at least one ASCII digit.  (A minus sign never
occurs in the app: the parsed strings are segments after a hyphen split.
Underscore digit grouping is not modelled.)  Returns none where int() raises
ValueError. -/
def pyToNat? (s : PyStr) : Option Nat :=
  let t := stripPlus (pyStrip s)
  if t ≠ [] ∧ t.all isDigitCh then some (parseDigits t) else none

/-- Python str.startswith: the first argument is a leading segment of the second. -/
def isPre : PyStr → PyStr → Bool
  | [], _ => true
  | _ :: _, [] => false
  | a :: p, b :: s => a = b && isPre p s

/-- Python substring test (the `in` operator on strings). -/
def containsSub (p : PyStr) : PyStr → Bool
  | [] => isPre p []
  | c :: t => isPre p (c :: t) || containsSub p t

/-- Segment of s after the last occurrence of c; s itself when c does not occur.
This models the Python idiom s.split(c)[-1]. -/
def afterLast (c : Char) (s : PyStr) : PyStr :=
  s.foldl (fun acc ch => if ch = c then [] else acc ++ [ch]) []

/-- Python str.upper() (the app only upper-cases ASCII cohort labels). -/
def pyUpper (s : PyStr) : PyStr := s.map Char.toUpper

/-- Segment of s before the first occurrence of c; s itself when c does not occur.
This models the Python idiom s.split(c)[0]. -/
def takeUntil (c : Char) : PyStr → PyStr
  | [] => []
  | a :: t => if a = c then [] else a :: takeUntil c t

/-!
## NAD reconciliation (claim C7)

Embeds adjust_nad from
src/CaseHistoryApp/pages/Clinic/11_Clinical_Visits_and_Case_History.py:
the source returns the adjusted flag and, exactly when it coerces the flag,
appends a warning to the nad_warnings list; the second component of the
returned pair models whether that append happened.
-/

def adjust_nad (nad_flag : Bool) (text : PyStr) : Bool × Bool :=
  if nad_flag && !(pyStrip text).isEmpty then (false, true) else (nad_flag, false)

/-!
## AUDIT scoring (claim C3)

Embeds the audit_risk banding and alcohol_abuse_flag computation from
src/CaseHistoryApp/pages/02_Eligibility_AUDIT.py (lines 411–424).
-/

def AUDIT_EXCLUSION_THRESHOLD : Nat := 15

def audit_risk (audit_total : Nat) : PyStr :=
  if audit_total ≤ 7 then "Zone I – Low risk".data
  else if audit_total ≤ 15 then "Zone II – Hazardous use".data
  else if audit_total ≤ 19 then "Zone III – Harmful use".data
  else "Zone IV – Possible dependence".data

def alcohol_abuse_flag (audit_total : Nat) : Bool :=
  decide (AUDIT_EXCLUSION_THRESHOLD < audit_total)

/-!
## Eligibility verdict (claim C2)

Embeds the overall-eligibility computation from
src/CaseHistoryApp/pages/02_Eligibility_AUDIT.py (lines 438–523): the
inc_ok / exc_any booleans, the sequentially appended reason_parts list,
and the final overall_eligible / reason_text values.
-/

def rsn_case_oscc : PyStr :=
  "Inclusion (cases): OSCC not confirmed / prior therapy present.".data

def rsn_inc_age : PyStr := "Inclusion: age < 18.".data

def rsn_case_stage : PyStr := "Inclusion: OSCC stage not acceptable.".data

def rsn_inc_consent : PyStr := "Inclusion: consent not obtained.".data

def rsn_inc_saliva : PyStr := "Inclusion: inadequate saliva sample.".data

def rsn_exc_other_malig : PyStr :=
  "Exclusion: malignancy other than OSCC / prior malignancy.".data

def rsn_exc_prior_treatment : PyStr :=
  "Exclusion: previously treated for malignancy.".data

def rsn_exc_metastatic : PyStr := "Exclusion: metastatic oral lesion.".data

def rsn_exc_preg : PyStr := "Exclusion: pregnancy.".data

def rsn_exc_substance : PyStr := "Exclusion: substance abuse (non-alcohol).".data

def rsn_ctrl_no_malig : PyStr :=
  "Inclusion (controls): history of malignancy present.".data

def rsn_ctrl_hist_malig : PyStr := "Exclusion: any history of malignancy.".data

/-- Alcohol-exclusion sentence with the AUDIT total interpolated, as in the
source f-string. -/
def rsn_alcohol (audit_total : Nat) : PyStr :=
  "Exclusion: alcohol abuse – AUDIT total ".data ++ natRepr audit_total ++
    " > ".data ++ natRepr AUDIT_EXCLUSION_THRESHOLD ++ ".".data

/-- One conditional append to the reason_parts list. -/
def iteBlock (b : Bool) (s : PyStr) : List PyStr := if b then [s] else []

/-- Python sep.join(parts). -/
def joinSemi (parts : List PyStr) : PyStr := List.intercalate "; ".data parts

/-- Checkbox values feeding the eligibility computation (one field per
checkbox variable of the page; the page fills the off-group fields with
False placeholders). -/
structure EligFlags where
  inc_case_oscc : Bool
  inc_case_age : Bool
  inc_case_any_stage : Bool
  inc_case_consent : Bool
  inc_case_saliva : Bool
  exc_case_other_malig : Bool
  exc_case_prior_treatment : Bool
  exc_case_metastatic : Bool
  exc_case_preg : Bool
  exc_case_substance : Bool
  inc_ctrl_no_malig : Bool
  inc_ctrl_age : Bool
  inc_ctrl_consent : Bool
  inc_ctrl_saliva : Bool
  exc_ctrl_hist_malig : Bool
  exc_ctrl_preg : Bool
  exc_ctrl_subst : Bool
deriving DecidableEq

/-- Result of the overall-eligibility computation. -/
structure Verdict where
  inc_ok : Bool
  exc_any : Bool
  overall_eligible : Bool
  reason_text : PyStr
deriving DecidableEq

/-- Reason parts accumulated in the Case branch, in source append order. -/
def parts_case (f : EligFlags) (audit_total : Nat) : List PyStr :=
  iteBlock (!f.inc_case_oscc) rsn_case_oscc ++
  iteBlock (!f.inc_case_age) rsn_inc_age ++
  iteBlock (!f.inc_case_any_stage) rsn_case_stage ++
  iteBlock (!f.inc_case_consent) rsn_inc_consent ++
  iteBlock (!f.inc_case_saliva) rsn_inc_saliva ++
  iteBlock f.exc_case_other_malig rsn_exc_other_malig ++
  iteBlock f.exc_case_prior_treatment rsn_exc_prior_treatment ++
  iteBlock f.exc_case_metastatic rsn_exc_metastatic ++
  iteBlock f.exc_case_preg rsn_exc_preg ++
  iteBlock f.exc_case_substance rsn_exc_substance ++
  iteBlock (alcohol_abuse_flag audit_total) (rsn_alcohol audit_total)

/-- Reason parts accumulated in the Control branch, in source append order. -/
def parts_control (f : EligFlags) (audit_total : Nat) : List PyStr :=
  iteBlock (!f.inc_ctrl_no_malig) rsn_ctrl_no_malig ++
  iteBlock (!f.inc_ctrl_age) rsn_inc_age ++
  iteBlock (!f.inc_ctrl_consent) rsn_inc_consent ++
  iteBlock (!f.inc_ctrl_saliva) rsn_inc_saliva ++
  iteBlock f.exc_ctrl_hist_malig rsn_ctrl_hist_malig ++
  iteBlock f.exc_ctrl_preg rsn_exc_preg ++
  iteBlock f.exc_ctrl_subst rsn_exc_substance ++
  iteBlock (alcohol_abuse_flag audit_total) (rsn_alcohol audit_total)

def verdict_case (f : EligFlags) (audit_total : Nat) : Verdict :=
  let alcohol := alcohol_abuse_flag audit_total
  let inc_ok := f.inc_case_oscc && f.inc_case_age && f.inc_case_any_stage &&
    f.inc_case_consent && f.inc_case_saliva
  let exc_any := f.exc_case_other_malig || f.exc_case_prior_treatment ||
    f.exc_case_metastatic || f.exc_case_preg || f.exc_case_substance || alcohol
  let parts := parts_case f audit_total
  let overall := inc_ok && !exc_any
  let reason := if parts.isEmpty && overall then [] else joinSemi parts
  ⟨inc_ok, exc_any, overall, reason⟩

def verdict_control (f : EligFlags) (audit_total : Nat) : Verdict :=
  let alcohol := alcohol_abuse_flag audit_total
  let inc_ok := f.inc_ctrl_no_malig && f.inc_ctrl_age && f.inc_ctrl_consent &&
    f.inc_ctrl_saliva
  let exc_any := f.exc_ctrl_hist_malig || f.exc_ctrl_preg || f.exc_ctrl_subst ||
    alcohol
  let parts := parts_control f audit_total
  let overall := inc_ok && !exc_any
  let reason := if parts.isEmpty && overall then [] else joinSemi parts
  ⟨inc_ok, exc_any, overall, reason⟩

def eligibility_verdict (group : PyStr) (f : EligFlags) (audit_total : Nat) :
    Verdict :=
  if group = "Case".data then verdict_case f audit_total
  else verdict_control f audit_total

/-- Checkbox assignment with every inclusion criterion met and every
exclusion checkbox clear, used as a concrete input. -/
def cleanFlags : EligFlags :=
  ⟨true, true, true, true, true, false, false, false, false, false,
   true, true, true, true, false, false, false⟩

/-!
## Research ID generation (claims C4, C5)

Embeds generate_research_id from
src/CaseHistoryApp/pages/01_Research_Participants.py (lines 57–112).
The source reads the active study id from st.session_state; here it is an
explicit Option argument (None / falsy empty string both fall back to the
"STUDY" literal, as in the source truthiness test).  Python's
max(nums) + 1 over a non-empty list of non-negative ints is embedded as
foldl max 0 + 1.
-/

def grpCodeOf (group : PyStr) : PyStr :=
  if group = "Case".data then "CA".data else "CO".data

def studyCodeOf : Option PyStr → PyStr
  | some s => if s = [] then "STUDY".data else takeUntil '_' s
  | none => "STUDY".data

def cohortTagOf (cohort : PyStr) : PyStr :=
  if isPre "PILOT".data (pyUpper cohort) then "Pilot".data else "Main".data

/-- Contribution of one existing id to the nums list: the parsed trailing
integer when the id starts with the study code and underscore and contains the
group fragment, none otherwise (also none when int() would raise). -/
def matchNum (study_code grp_code : PyStr) (rid : PyStr) : Option Nat :=
  if isPre (study_code ++ ['_']) rid then
    if containsSub (grp_code ++ ['-']) rid then pyToNat? (afterLast '-' rid)
    else none
  else none

def generate_research_id (active_study_id : Option PyStr) (group cohort : PyStr)
    (existing_ids : List PyStr) : PyStr :=
  let grp_code := grpCodeOf group
  let study_code := studyCodeOf active_study_id
  let cohort_tag := cohortTagOf cohort
  let nums := existing_ids.filterMap (matchNum study_code grp_code)
  let next_num := match nums with
    | [] => 1
    | _ :: _ => nums.foldl max 0 + 1
  study_code ++ ['_'] ++ cohort_tag ++ grp_code ++ ['-'] ++ padRepr 3 next_num

/-- Next counter value as the claim words it: max over the matching trailing
integers, defaulting to 0, plus one. -/
def spec_next_num (study_code grp_code : PyStr) (existing_ids : List PyStr) : Nat :=
  (existing_ids.filterMap (matchNum study_code grp_code)).foldl max 0 + 1

/-- Sequential generation: for each cohort value in turn, generate an id
against the accumulated existing-ids list and append it. -/
def genAccum (active_study_id : Option PyStr) (group : PyStr)
    (acc : List PyStr) : List PyStr → List PyStr
  | [] => []
  | c :: cs =>
    let rid := generate_research_id active_study_id group c acc
    rid :: genAccum active_study_id group (acc ++ [rid]) cs

/-!
## Sample ID default (claim C8)

Embeds default_sample_id from
src/CaseHistoryApp/pages/05_Samples_Chain_of_Custody.py (lines 66–82).
The source probes candidates base-02, base-03, … in an unbounded while
loop; here the loop carries fuel existing_ids.length + 1, which is shown
sufficient (the candidates are pairwise distinct, so one of the first
length+1 of them is unused).
-/

def probeSuffix (base : PyStr) (existing : List PyStr) : Nat → Nat → PyStr
  | _, 0 => []
  | i, fuel + 1 =>
    let cand := base ++ ['-'] ++ padRepr 2 i
    if cand ∈ existing then probeSuffix base existing (i + 1) fuel else cand

def default_sample_id (research_id sample_type : PyStr)
    (existing_ids : List PyStr) : PyStr :=
  let base := research_id ++ ['-'] ++ sample_type
  if base ∈ existing_ids then
    probeSuffix base existing_ids 2 (existing_ids.length + 1)
  else base

/-!
## Pipeline status (claim C9)

Embeds compute_status from
src/CaseHistoryApp/pages/01_Research_Participants.py (lines 116–168).
Rows carry the columns the function reads: the case-history table its
ResearchID, the samples table ResearchID / SampleID / Lab_ReceivedYN
(fillna(False) makes it a Bool), the lab table SampleID.  The pandas
empty/column-presence guards are vacuous in this typed model: an empty
list already makes every any/filter false.
-/

structure HistRow where
  rid : PyStr
deriving DecidableEq

structure SampleRow where
  rid : PyStr
  sid : PyStr
  labReceived : Bool
deriving DecidableEq

structure LabRow where
  sid : PyStr
deriving DecidableEq

def hasHistoryOf (case_hist : List HistRow) (research_id : PyStr) : Bool :=
  case_hist.any (fun r => decide (r.rid = research_id))

def smOf (samples : List SampleRow) (research_id : PyStr) : List SampleRow :=
  samples.filter (fun r => decide (r.rid = research_id))

def sampleIdsOf (samples : List SampleRow) (research_id : PyStr) : List PyStr :=
  (smOf samples research_id).map (fun r => r.sid)

def inDeepFreezerOf (samples : List SampleRow) (research_id : PyStr) : Bool :=
  (smOf samples research_id).any (fun r => r.labReceived)

def inLabOf (samples : List SampleRow) (lab_df : List LabRow)
    (research_id : PyStr) : Bool :=
  !(sampleIdsOf samples research_id).isEmpty &&
    lab_df.any (fun l => (sampleIdsOf samples research_id).any
      (fun s => decide (s = l.sid)))

/-- Decide main status label: the ladder from the source, highest first. -/
def statusLabel (in_lab in_deep_freezer has_history has_samples : Bool) : PyStr :=
  if in_lab then "In lab / analysis".data
  else if in_deep_freezer then "In deep freezer".data
  else if has_history then "History taken".data
  else if has_samples then "Samples collected".data
  else "Registered only".data

def statusFlag (b : Bool) (label : PyStr) : PyStr :=
  label ++ (if b then " ✓" else " –").data

def compute_status (case_hist : List HistRow) (samples : List SampleRow)
    (lab_df : List LabRow) (research_id : PyStr) : PyStr × PyStr :=
  let has_history := hasHistoryOf case_hist research_id
  let has_samples := !(smOf samples research_id).isEmpty
  let in_deep_freezer := inDeepFreezerOf samples research_id
  let in_lab := inLabOf samples lab_df research_id
  let main := statusLabel in_lab in_deep_freezer has_history has_samples
  let detail := List.intercalate " | ".data
    [statusFlag has_history "History".data,
     statusFlag has_samples "Samples".data,
     statusFlag in_deep_freezer "Deep freezer".data,
     statusFlag in_lab "Lab".data]
  (main, detail)

/-- Position of a status label on the pipeline ladder. -/
def stageRank (s : PyStr) : Nat :=
  if s = "In lab / analysis".data then 4
  else if s = "In deep freezer".data then 3
  else if s = "History taken".data then 2
  else if s = "Samples collected".data then 1
  else 0

/-!
## Table store, participant deletion, clinical deletion, eligibility save
(claims C1, C6, C10)

The flat-file store (data_io.py: one CSV per logical table) is modelled as
a function from table names to row lists; save_table overwrites one table.
Rows are reduced to the key column the operations inspect (ResearchID /
ClinicalID) plus an opaque payload distinguishing rows.
-/

structure RRow where
  rid : PyStr
  payload : Nat
deriving DecidableEq

def Store := String → List RRow

def setTbl (st : Store) (name : String) (rows : List RRow) : Store :=
  fun t => if t = name then rows else st t

/-- The fixed cascade list of the confirm-delete handler in
src/CaseHistoryApp/pages/01_Research_Participants.py (lines 362–369). -/
def related_tables : List String :=
  ["research_eligibility", "research_consent", "research_samples",
   "research_case_history", "research_lab_pcr_ngs", "research_panel_risk"]

/-- Confirm-delete handler for a research participant: filter the participant
row out of research_participants, then for each table in related_tables load
it and persist it filtered on ResearchID.  (The pandas guards for an empty
frame or a missing ResearchID column are identity cases here: filtering an
empty list is a no-op, and every modelled row carries the key column.) -/
def delete_research_participant (st : Store) (rid : PyStr) : Store :=
  let st1 := setTbl st "research_participants"
    ((st "research_participants").filter (fun r => decide (r.rid ≠ rid)))
  related_tables.foldl
    (fun s tbl => setTbl s tbl ((s tbl).filter (fun r => decide (r.rid ≠ rid)))) st1

/-- Delete handler for a clinical patient in
src/CaseHistoryApp/pages/Clinic/10_Clinical_Patients.py (lines 250–258): it
filters only the clinical_patients table and saves it; no other table is
touched.  (The page sorts the loaded frame for display before filtering;
sorting permutes rows and is omitted — the properties stated below are
membership properties and frame equalities, which permutation does not
affect.) -/
def delete_clinical_patient (st : Store) (cid : PyStr) : Store :=
  setTbl st "clinical_patients"
    ((st "clinical_patients").filter (fun r => decide (r.rid ≠ cid)))

/-- Eligibility page persistence pipeline
(src/CaseHistoryApp/pages/02_Eligibility_AUDIT.py): on load the eligibility
table is filtered to ResearchIDs of currently registered participants
(lines 72–75); on save the selected participant's row is dropped, the new row
appended, and the whole frame written back (lines 577–580). -/
def elig_page_save (participants : List PyStr) (elig_on_disk : List RRow)
    (selected : PyStr) (new_payload : Nat) : List RRow :=
  let elig_df := elig_on_disk.filter (fun r => decide (r.rid ∈ participants))
  let elig_df2 := elig_df.filter (fun r => decide (r.rid ≠ selected))
  elig_df2 ++ [⟨selected, new_payload⟩]

/-- Store with participant R1 and R1 rows in the tables the eligibility,
consent and panel-risk pages actually persist to ("eligibility",
"research_consents", "risk_results" — see save_table calls in pages
02, 03 and 07). -/
def c1_store : Store := fun t =>
  if t = "research_participants" then [⟨"R1".data, 0⟩]
  else if t = "eligibility" then [⟨"R1".data, 1⟩]
  else if t = "research_consents" then [⟨"R1".data, 2⟩]
  else if t = "risk_results" then [⟨"R1".data, 3⟩]
  else []

/-- Store with one clinical patient and dependent rows referencing it in the
visit, image and treatment tables. -/
def c6_store : Store := fun t =>
  if t = "clinical_patients" then [⟨"CLIN-0001".data, 0⟩]
  else if t = "clinical_visits" then [⟨"CLIN-0001".data, 1⟩]
  else if t = "clinical_images_reports" then [⟨"CLIN-0001".data, 2⟩]
  else if t = "clinical_treatments" then [⟨"CLIN-0001".data, 3⟩]
  else []

theorem digitChar_toNat {d : Nat} (hd : d < 10) : (digitChar d).toNat = 48 + d := by
  interval_cases d <;> rfl

theorem isDigitCh_digitChar {d : Nat} (hd : d < 10) : isDigitCh (digitChar d) = true := by
  interval_cases d <;> rfl

theorem digitsAux_spec :
    ∀ fuel n, n ≤ fuel →
      (∀ c ∈ digitsAux fuel n, isDigitCh c = true) ∧
      (∀ a, List.foldl pdStep a (digitsAux fuel n) =
        a * 10 ^ (digitsAux fuel n).length + n) := by
  intro fuel
  induction fuel with
  | zero =>
    intro n hn
    have hn0 : n = 0 := Nat.le_zero.mp hn
    subst hn0
    exact ⟨by intro c hc; simp [digitsAux] at hc, by intro a; simp [digitsAux]⟩
  | succ f ih =>
    intro n hn
    by_cases h0 : n = 0
    · subst h0
      exact ⟨by intro c hc; simp [digitsAux] at hc, by intro a; simp [digitsAux]⟩
    · have hdiv : n / 10 ≤ f := by
        have hlt : n / 10 < n := Nat.div_lt_self (Nat.pos_of_ne_zero h0) (by norm_num)
        omega
      obtain ⟨ihd, ihp⟩ := ih (n / 10) hdiv
      have hunf : digitsAux (f + 1) n = digitsAux f (n / 10) ++ [digitChar (n % 10)] := by
        simp [digitsAux, h0]
      constructor
      · intro c hc
        rw [hunf] at hc
        rcases List.mem_append.mp hc with hc | hc
        · exact ihd c hc
        · have : c = digitChar (n % 10) := List.mem_singleton.mp hc
          subst this
          exact isDigitCh_digitChar (Nat.mod_lt _ (by norm_num))
      · intro a
        rw [hunf]
        rw [List.foldl_append]
        have hmod : (digitChar (n % 10)).toNat - 48 = n % 10 := by
          rw [digitChar_toNat (Nat.mod_lt _ (by norm_num))]
          omega
        simp only [List.foldl, pdStep, hmod, ihp a, List.length_append,
          List.length_singleton]
        rw [pow_succ]
        have := Nat.div_add_mod n 10
        ring_nf
        omega

theorem natRepr_all_digits (n : Nat) : ∀ c ∈ natRepr n, isDigitCh c = true := by
  intro c hc
  by_cases h0 : n = 0
  · subst h0
    simp [natRepr] at hc
    subst hc; rfl
  · simp only [natRepr, if_neg h0] at hc
    exact (digitsAux_spec n n le_rfl).1 c hc

theorem parseDigits_natRepr (n : Nat) : parseDigits (natRepr n) = n := by
  by_cases h0 : n = 0
  · subst h0; rfl
  · simp only [natRepr, if_neg h0, parseDigits]
    have := (digitsAux_spec n n le_rfl).2 0
    simpa using this

theorem natRepr_ne_nil (n : Nat) : natRepr n ≠ [] := by
  by_cases h0 : n = 0
  · subst h0; simp [natRepr]
  · simp only [natRepr, if_neg h0]
    intro h
    have := parseDigits_natRepr n
    simp only [natRepr, if_neg h0, h, parseDigits, List.foldl] at this
    exact h0 this.symm

theorem parseDigits_replicate_zero (k : Nat) (s : List Char) :
    List.foldl pdStep 0 (List.replicate k '0' ++ s) = List.foldl pdStep 0 s := by
  induction k with
  | zero => simp
  | succ m ih => simpa [List.replicate_succ, pdStep] using ih

theorem padRepr_all_digits (w n : Nat) : ∀ c ∈ padRepr w n, isDigitCh c = true := by
  intro c hc
  rcases List.mem_append.mp hc with hc | hc
  · have : c = '0' := List.eq_of_mem_replicate hc
    subst this; rfl
  · exact natRepr_all_digits n c hc

theorem parseDigits_padRepr (w n : Nat) : parseDigits (padRepr w n) = n := by
  unfold padRepr parseDigits
  rw [parseDigits_replicate_zero]
  exact parseDigits_natRepr n

theorem padRepr_ne_nil (w n : Nat) : padRepr w n ≠ [] := by
  unfold padRepr
  intro h
  rcases List.append_eq_nil.mp h with ⟨-, h2⟩
  exact natRepr_ne_nil n h2

theorem pyStrip_of_no_space {s : PyStr} (h : ∀ c ∈ s, isSpaceCh c = false) :
    pyStrip s = s := by
  unfold pyStrip
  have h1 : s.dropWhile isSpaceCh = s := by
    cases s with
    | nil => rfl
    | cons c t =>
      have : isSpaceCh c = false := h c (List.mem_cons_self c t)
      simp [List.dropWhile, this]
  rw [h1]
  have h2 : s.reverse.dropWhile isSpaceCh = s.reverse := by
    cases hr : s.reverse with
    | nil => rfl
    | cons c t =>
      have hcmem : c ∈ s := by
        have : c ∈ s.reverse := by rw [hr]; exact List.mem_cons_self c t
        exact List.mem_reverse.mp this
      have : isSpaceCh c = false := h c hcmem
      simp [List.dropWhile, this]
  rw [h2, List.reverse_reverse]

theorem stripPlus_of_head_digit {s : PyStr} (h : ∀ c ∈ s, isDigitCh c = true) :
    stripPlus s = s := by
  cases s with
  | nil => rfl
  | cons c t =>
    have hd : isDigitCh c = true := h c (List.mem_cons_self c t)
    have hne : c ≠ '+' := by
      intro he; subst he; exact absurd hd (by decide)
    simp [stripPlus, hne]

theorem digit_not_space {c : Char} (h : isDigitCh c = true) : isSpaceCh c = false := by
  cases hb : isSpaceCh c with
  | false => rfl
  | true =>
    exfalso
    unfold isSpaceCh at hb
    simp only [Bool.or_eq_true, decide_eq_true_eq] at hb
    rcases hb with ((he | he) | he) | he <;> subst he <;> exact absurd h (by decide)

theorem pyToNat?_all_digits {s : PyStr} (hne : s ≠ [])
    (hd : ∀ c ∈ s, isDigitCh c = true) : pyToNat? s = some (parseDigits s) := by
  unfold pyToNat?
  have h1 : pyStrip s = s := pyStrip_of_no_space (fun c hc => digit_not_space (hd c hc))
  have h2 : stripPlus s = s := stripPlus_of_head_digit hd
  simp only [h1, h2]
  rw [if_pos ⟨hne, List.all_eq_true.mpr hd⟩]

theorem pyToNat?_padRepr (w n : Nat) : pyToNat? (padRepr w n) = some n := by
  rw [pyToNat?_all_digits (padRepr_ne_nil w n) (padRepr_all_digits w n)]
  rw [parseDigits_padRepr]

theorem padRepr_injective (w : Nat) : Function.Injective (padRepr w) := by
  intro a b h
  have := parseDigits_padRepr w a
  rw [h, parseDigits_padRepr] at this
  exact this.symm

theorem isPre_append (p r : PyStr) : isPre p (p ++ r) = true := by
  induction p with
  | nil => rfl
  | cons a t ih => simp [isPre, ih]

theorem containsSub_of_isPre {p s : PyStr} (h : isPre p s = true) :
    containsSub p s = true := by
  cases s with
  | nil => exact h
  | cons c t => simp [containsSub, h]

theorem containsSub_append_left {p s : PyStr} (a : PyStr)
    (h : containsSub p s = true) : containsSub p (a ++ s) = true := by
  induction a with
  | nil => exact h
  | cons x xs ih => simp [containsSub, ih]

theorem containsSub_append_mid (a p b : PyStr) :
    containsSub p (a ++ p ++ b) = true := by
  rw [List.append_assoc]
  exact containsSub_append_left a (containsSub_of_isPre (isPre_append p b))

theorem afterLast_foldl_no {c : Char} {ys : PyStr} (h : ∀ ch ∈ ys, ch ≠ c) :
    ∀ acc, List.foldl (fun acc ch => if ch = c then [] else acc ++ [ch]) acc ys
      = acc ++ ys := by
  induction ys with
  | nil => intro acc; simp
  | cons y t ih =>
    intro acc
    have hy : y ≠ c := h y (List.mem_cons_self y t)
    simp only [List.foldl, if_neg hy]
    rw [ih (fun ch hc => h ch (List.mem_cons_of_mem y hc))]
    simp

theorem afterLast_append_last {c : Char} (xs : PyStr) {ys : PyStr}
    (h : ∀ ch ∈ ys, ch ≠ c) : afterLast c (xs ++ c :: ys) = ys := by
  unfold afterLast
  rw [List.foldl_append]
  simp only [List.foldl, if_pos rfl]
  exact afterLast_foldl_no h []

/-- Claim C7: adjust_nad returns (False, warned) when the flag is true and the
trimmed text is non-empty, (True, not warned) when the flag is true and the
trimmed text is empty, and (False, not warned) whenever the flag is false. -/
theorem claim_C7_adjust_nad (text : PyStr) :
    (pyStrip text ≠ [] → adjust_nad true text = (false, true)) ∧
    (pyStrip text = [] → adjust_nad true text = (true, false)) ∧
    adjust_nad false text = (false, false) := by
  refine ⟨?_, ?_, ?_⟩
  · intro h
    simp [adjust_nad, List.isEmpty_iff, h]
  · intro h
    simp [adjust_nad, List.isEmpty_iff, h]
  · simp [adjust_nad]

/-- Witness for claim C7 at concrete inputs. -/
theorem claim_C7_adjust_nad_witness :
    adjust_nad true " some text ".data = (false, true) ∧
    adjust_nad true "   ".data = (true, false) ∧
    adjust_nad false "anything".data = (false, false) :=
  ⟨(claim_C7_adjust_nad " some text ".data).1 (by decide),
   (claim_C7_adjust_nad "   ".data).2.1 (by decide),
   (claim_C7_adjust_nad "anything".data).2.2⟩

/-- Claim C3: for every AUDIT total up to 40, the risk band is Zone I iff the
total is at most 7, Zone II iff it is 8–15, Zone III iff it is 16–19, Zone IV
iff it is 20–40, and the alcohol-abuse exclusion flag is set iff the total
exceeds 15. -/
theorem claim_C3_audit_bands :
    ∀ t : Nat, t ≤ 40 →
      ((audit_risk t = "Zone I – Low risk".data ↔ t ≤ 7) ∧
       (audit_risk t = "Zone II – Hazardous use".data ↔ 8 ≤ t ∧ t ≤ 15) ∧
       (audit_risk t = "Zone III – Harmful use".data ↔ 16 ≤ t ∧ t ≤ 19) ∧
       (audit_risk t = "Zone IV – Possible dependence".data ↔ 20 ≤ t ∧ t ≤ 40) ∧
       (alcohol_abuse_flag t = true ↔ 15 < t)) := by
  decide

/-- Witness for claim C3 at the boundary totals 15 and 16. -/
theorem claim_C3_audit_bands_witness :
    (audit_risk 15 = "Zone II – Hazardous use".data ↔ 8 ≤ 15 ∧ 15 ≤ 15) ∧
    (audit_risk 16 = "Zone III – Harmful use".data ↔ 16 ≤ 16 ∧ 16 ≤ 19) :=
  ⟨(claim_C3_audit_bands 15 (by decide)).2.1,
   (claim_C3_audit_bands 16 (by decide)).2.2.1⟩

theorem iteBlock_eq_nil_iff {b : Bool} {s : PyStr} :
    iteBlock b s = [] ↔ b = false := by
  cases b <;> simp [iteBlock]

theorem mem_iteBlock {x s : PyStr} {b : Bool} (h : x ∈ iteBlock b s) : x = s := by
  cases b with
  | false => exact absurd h (List.not_mem_nil x)
  | true => exact List.mem_singleton.mp h

theorem rsn_alcohol_ne_nil (t : Nat) : rsn_alcohol t ≠ [] := by
  intro h
  have := congrArg List.length h
  simp [rsn_alcohol] at this

theorem intercalate_ne_nil {sep : PyStr} {parts : List PyStr}
    (hne : parts ≠ []) (helems : ∀ x ∈ parts, x ≠ []) :
    List.intercalate sep parts ≠ [] := by
  cases parts with
  | nil => exact absurd rfl hne
  | cons p rest =>
    have hp : p ≠ [] := helems p (List.mem_cons_self p rest)
    cases rest with
    | nil =>
      simp [List.intercalate, List.intersperse]
      exact hp
    | cons q t =>
      intro h
      simp only [List.intercalate, List.intersperse, List.flatten_cons] at h
      exact hp (List.append_eq_nil.mp h).1

theorem joinSemi_ne_nil {parts : List PyStr} (hne : parts ≠ [])
    (helems : ∀ x ∈ parts, x ≠ []) : joinSemi parts ≠ [] :=
  intercalate_ne_nil hne helems

theorem joinSemi_nil : joinSemi [] = [] := rfl

theorem reason_if_eq_join (parts : List PyStr) (b : Bool) :
    (if parts.isEmpty && b then [] else joinSemi parts) = joinSemi parts := by
  cases parts with
  | nil => cases b <;> simp [joinSemi_nil]
  | cons p r => simp

theorem mem_parts_case_ne_nil (f : EligFlags) (t : Nat) :
    ∀ x ∈ parts_case f t, x ≠ [] := by
  intro x hx
  simp only [parts_case, List.mem_append] at hx
  rcases hx with ((((((((((hx | hx) | hx) | hx) | hx) | hx) | hx) | hx) | hx) | hx) | hx) <;>
    rw [mem_iteBlock hx] <;> first | decide | exact rsn_alcohol_ne_nil t

theorem mem_parts_control_ne_nil (f : EligFlags) (t : Nat) :
    ∀ x ∈ parts_control f t, x ≠ [] := by
  intro x hx
  simp only [parts_control, List.mem_append] at hx
  rcases hx with (((((((hx | hx) | hx) | hx) | hx) | hx) | hx) | hx) <;>
    rw [mem_iteBlock hx] <;> first | decide | exact rsn_alcohol_ne_nil t

theorem verdict_case_overall (f : EligFlags) (t : Nat) :
    (verdict_case f t).overall_eligible =
      ((f.inc_case_oscc && f.inc_case_age && f.inc_case_any_stage &&
        f.inc_case_consent && f.inc_case_saliva) &&
       !(f.exc_case_other_malig || f.exc_case_prior_treatment ||
         f.exc_case_metastatic || f.exc_case_preg || f.exc_case_substance ||
         alcohol_abuse_flag t)) := rfl

theorem verdict_control_overall (f : EligFlags) (t : Nat) :
    (verdict_control f t).overall_eligible =
      ((f.inc_ctrl_no_malig && f.inc_ctrl_age && f.inc_ctrl_consent &&
        f.inc_ctrl_saliva) &&
       !(f.exc_ctrl_hist_malig || f.exc_ctrl_preg || f.exc_ctrl_subst ||
         alcohol_abuse_flag t)) := rfl

theorem verdict_case_reason (f : EligFlags) (t : Nat) :
    (verdict_case f t).reason_text = joinSemi (parts_case f t) :=
  reason_if_eq_join (parts_case f t) _

theorem verdict_control_reason (f : EligFlags) (t : Nat) :
    (verdict_control f t).reason_text = joinSemi (parts_control f t) :=
  reason_if_eq_join (parts_control f t) _

theorem joinSemi_eq_nil_iff {parts : List PyStr}
    (helems : ∀ x ∈ parts, x ≠ []) : joinSemi parts = [] ↔ parts = [] := by
  constructor
  · intro h
    by_contra hne
    exact joinSemi_ne_nil hne helems h
  · intro h
    rw [h, joinSemi_nil]

theorem verdict_case_reason_empty_iff (f : EligFlags) (t : Nat) :
    (verdict_case f t).reason_text = [] ↔
      (verdict_case f t).overall_eligible = true := by
  rw [verdict_case_reason, joinSemi_eq_nil_iff (mem_parts_case_ne_nil f t),
    verdict_case_overall]
  simp only [parts_case, List.append_eq_nil, iteBlock_eq_nil_iff,
    Bool.not_eq_false', Bool.and_eq_true, Bool.not_eq_true',
    Bool.or_eq_false_iff]
  tauto

theorem verdict_control_reason_empty_iff (f : EligFlags) (t : Nat) :
    (verdict_control f t).reason_text = [] ↔
      (verdict_control f t).overall_eligible = true := by
  rw [verdict_control_reason, joinSemi_eq_nil_iff (mem_parts_control_ne_nil f t),
    verdict_control_overall]
  simp only [parts_control, List.append_eq_nil, iteBlock_eq_nil_iff,
    Bool.not_eq_false', Bool.and_eq_true, Bool.not_eq_true',
    Bool.or_eq_false_iff]
  tauto

theorem ev_case (f : EligFlags) (t : Nat) :
    eligibility_verdict "Case".data f t = verdict_case f t := by
  simp [eligibility_verdict]

theorem ev_control (f : EligFlags) (t : Nat) :
    eligibility_verdict "Control".data f t = verdict_control f t := by
  have h : ("Control".data : PyStr) ≠ "Case".data := by decide
  simp [eligibility_verdict, h]

/-- Claim C2: for each group the overall verdict is the conjunction of that
group's inclusion flags AND NOT the disjunction of its exclusion flags or the
alcohol-abuse flag, and the reason text is the semicolon-join of one sentence
per failing inclusion flag and per true exclusion flag (in source order, the
alcohol sentence last), empty exactly when the verdict is eligible. -/
theorem claim_C2_eligibility_verdict (f : EligFlags) (t : Nat) :
    ((eligibility_verdict "Case".data f t).overall_eligible =
      ((f.inc_case_oscc && f.inc_case_age && f.inc_case_any_stage &&
        f.inc_case_consent && f.inc_case_saliva) &&
       !(f.exc_case_other_malig || f.exc_case_prior_treatment ||
         f.exc_case_metastatic || f.exc_case_preg || f.exc_case_substance ||
         alcohol_abuse_flag t)) ∧
     (eligibility_verdict "Case".data f t).reason_text =
      joinSemi (iteBlock (!f.inc_case_oscc) rsn_case_oscc ++
        iteBlock (!f.inc_case_age) rsn_inc_age ++
        iteBlock (!f.inc_case_any_stage) rsn_case_stage ++
        iteBlock (!f.inc_case_consent) rsn_inc_consent ++
        iteBlock (!f.inc_case_saliva) rsn_inc_saliva ++
        iteBlock f.exc_case_other_malig rsn_exc_other_malig ++
        iteBlock f.exc_case_prior_treatment rsn_exc_prior_treatment ++
        iteBlock f.exc_case_metastatic rsn_exc_metastatic ++
        iteBlock f.exc_case_preg rsn_exc_preg ++
        iteBlock f.exc_case_substance rsn_exc_substance ++
        iteBlock (alcohol_abuse_flag t) (rsn_alcohol t)) ∧
     ((eligibility_verdict "Case".data f t).reason_text = [] ↔
      (eligibility_verdict "Case".data f t).overall_eligible = true)) ∧
    ((eligibility_verdict "Control".data f t).overall_eligible =
      ((f.inc_ctrl_no_malig && f.inc_ctrl_age && f.inc_ctrl_consent &&
        f.inc_ctrl_saliva) &&
       !(f.exc_ctrl_hist_malig || f.exc_ctrl_preg || f.exc_ctrl_subst ||
         alcohol_abuse_flag t)) ∧
     (eligibility_verdict "Control".data f t).reason_text =
      joinSemi (iteBlock (!f.inc_ctrl_no_malig) rsn_ctrl_no_malig ++
        iteBlock (!f.inc_ctrl_age) rsn_inc_age ++
        iteBlock (!f.inc_ctrl_consent) rsn_inc_consent ++
        iteBlock (!f.inc_ctrl_saliva) rsn_inc_saliva ++
        iteBlock f.exc_ctrl_hist_malig rsn_ctrl_hist_malig ++
        iteBlock f.exc_ctrl_preg rsn_exc_preg ++
        iteBlock f.exc_ctrl_subst rsn_exc_substance ++
        iteBlock (alcohol_abuse_flag t) (rsn_alcohol t)) ∧
     ((eligibility_verdict "Control".data f t).reason_text = [] ↔
      (eligibility_verdict "Control".data f t).overall_eligible = true)) := by
  rw [ev_case, ev_control]
  exact ⟨⟨verdict_case_overall f t, verdict_case_reason f t,
          verdict_case_reason_empty_iff f t⟩,
         ⟨verdict_control_overall f t, verdict_control_reason f t,
          verdict_control_reason_empty_iff f t⟩⟩

/-- Witness for claim C2 at a concrete input: with clean checkboxes and AUDIT
total 16 the alcohol flag makes the Case verdict ineligible with a non-empty
reason, while total 0 gives an eligible verdict with an empty reason. -/
theorem claim_C2_eligibility_verdict_witness :
    (eligibility_verdict "Case".data cleanFlags 16).overall_eligible = false ∧
    (eligibility_verdict "Case".data cleanFlags 16).reason_text ≠ [] ∧
    (eligibility_verdict "Case".data cleanFlags 0).overall_eligible = true ∧
    (eligibility_verdict "Case".data cleanFlags 0).reason_text = [] := by
  have h16 := claim_C2_eligibility_verdict cleanFlags 16
  have h0 := claim_C2_eligibility_verdict cleanFlags 0
  refine ⟨?_, ?_, ?_, ?_⟩
  · rw [h16.1.1]; decide
  · intro hnil
    have := h16.1.2.2.mp hnil
    rw [h16.1.1] at this
    exact absurd this (by decide)
  · rw [h0.1.1]; decide
  · exact h0.1.2.2.mpr (by rw [h0.1.1]; decide)

theorem next_num_match_eq (nums : List Nat) :
    (match nums with
      | [] => 1
      | _ :: _ => nums.foldl max 0 + 1) = nums.foldl max 0 + 1 := by
  cases nums <;> simp

theorem foldl_max_le_init : ∀ (l : List Nat) (a b : Nat), a ≤ b →
    l.foldl max a ≤ l.foldl max b := by
  intro l
  induction l with
  | nil => intro a b h; exact h
  | cons x t ih =>
    intro a b h
    exact ih _ _ (by omega)

theorem init_le_foldl_max : ∀ (l : List Nat) (a : Nat), a ≤ l.foldl max a := by
  intro l
  induction l with
  | nil => intro a; exact le_rfl
  | cons x t ih =>
    intro a
    exact le_trans (Nat.le_max_left a x) (ih (max a x))

theorem mem_le_foldl_max {m : Nat} : ∀ {l : List Nat} (a : Nat), m ∈ l →
    m ≤ l.foldl max a := by
  intro l
  induction l with
  | nil => intro a h; exact absurd h (List.not_mem_nil m)
  | cons x t ih =>
    intro a h
    rcases List.mem_cons.mp h with h | h
    · subst h
      exact le_trans (Nat.le_max_right a m) (init_le_foldl_max t (max a m))
    · exact ih (max a x) h

theorem foldl_max_append_singleton (xs : List Nat) (y : Nat) :
    (xs ++ [y]).foldl max 0 = max (xs.foldl max 0) y := by
  rw [List.foldl_append]
  rfl

theorem digit_ne_dash {c : Char} (h : isDigitCh c = true) : c ≠ '-' := by
  intro he
  subst he
  exact absurd h (by decide)

/-- The id built for counter value n parses back to n: it starts with the
study code and underscore, contains the group fragment, and its segment after
the last hyphen is the zero-padded counter. -/
theorem matchNum_generated (sc tag gc : PyStr) (n : Nat) :
    matchNum sc gc (sc ++ ['_'] ++ tag ++ gc ++ ['-'] ++ padRepr 3 n) = some n := by
  have hpre : isPre (sc ++ ['_'])
      (sc ++ ['_'] ++ tag ++ gc ++ ['-'] ++ padRepr 3 n) = true := by
    have := isPre_append (sc ++ ['_']) (tag ++ gc ++ ['-'] ++ padRepr 3 n)
    simpa [List.append_assoc] using this
  have hsub : containsSub (gc ++ ['-'])
      (sc ++ ['_'] ++ tag ++ gc ++ ['-'] ++ padRepr 3 n) = true := by
    have := containsSub_append_mid (sc ++ ['_'] ++ tag) (gc ++ ['-']) (padRepr 3 n)
    simpa [List.append_assoc] using this
  have hafter : afterLast '-'
      (sc ++ ['_'] ++ tag ++ gc ++ ['-'] ++ padRepr 3 n) = padRepr 3 n := by
    have h1 : sc ++ ['_'] ++ tag ++ gc ++ ['-'] ++ padRepr 3 n =
        (sc ++ ['_'] ++ tag ++ gc) ++ '-' :: padRepr 3 n := by
      simp [List.append_assoc]
    rw [h1]
    exact afterLast_append_last _
      (fun ch hc => digit_ne_dash (padRepr_all_digits 3 n ch hc))
  unfold matchNum
  rw [hpre, hsub, hafter]
  simp [pyToNat?_padRepr]

/-- Closed form of generate_research_id: the formatted template around
max-of-matching-numbers plus one (the empty-nums branch of the source returns
1, which coincides with the fold default 0 plus 1). -/
theorem generate_research_id_eq (active : Option PyStr) (group cohort : PyStr)
    (existing_ids : List PyStr) :
    generate_research_id active group cohort existing_ids =
      studyCodeOf active ++ ['_'] ++ cohortTagOf cohort ++ grpCodeOf group ++
        ['-'] ++ padRepr 3
          ((existing_ids.filterMap
            (matchNum (studyCodeOf active) (grpCodeOf group))).foldl max 0 + 1) := by
  unfold generate_research_id
  cases hnm : existing_ids.filterMap (matchNum (studyCodeOf active) (grpCodeOf group)) with
  | nil => simp [hnm]
  | cons a t => simp [hnm]

theorem matchNum_some_parse {sc gc rid : PyStr} {v : Nat}
    (h : matchNum sc gc rid = some v) :
    pyToNat? (afterLast '-' rid) = some v := by
  unfold matchNum at h
  split at h
  · split at h
    · exact h
    · exact absurd h (by simp)
  · exact absurd h (by simp)

/-- Claim C4: generate_research_id returns the study/cohort/group template
around a zero-padded counter, the counter being max+1 over the trailing
integers of exactly the existing ids that start with the study code and
underscore and contain the group fragment (so the Pilot/Main tag is ignored
by the count), with max defaulting to 0 when nothing matches. -/
theorem claim_C4_generate_research_id (active : Option PyStr)
    (group cohort : PyStr) (existing_ids : List PyStr) :
    (generate_research_id active group cohort existing_ids =
      studyCodeOf active ++ "_".data ++ cohortTagOf cohort ++ grpCodeOf group ++
        "-".data ++ padRepr 3
          (spec_next_num (studyCodeOf active) (grpCodeOf group) existing_ids)) ∧
    grpCodeOf group = (if group = "Case".data then "CA".data else "CO".data) ∧
    cohortTagOf cohort =
      (if isPre "PILOT".data (pyUpper cohort) then "Pilot".data else "Main".data) ∧
    ((∀ rid ∈ existing_ids,
        matchNum (studyCodeOf active) (grpCodeOf group) rid = none) →
      spec_next_num (studyCodeOf active) (grpCodeOf group) existing_ids = 1) := by
  refine ⟨generate_research_id_eq active group cohort existing_ids, rfl, rfl, ?_⟩
  intro h
  unfold spec_next_num
  rw [List.filterMap_eq_nil.mpr h]
  rfl

/-- Witness for claim C4: the Pilot id OSCC_PilotCA-001 advances the shared
counter of a Main-cohort generation (cohort tag ignored by the count), and a
list with no matching id yields counter 1. -/
theorem claim_C4_generate_research_id_witness :
    generate_research_id (some "OSCC_THESIS".data) "Case".data "MAIN".data
      ["OSCC_PilotCA-001".data, "OSCC_PilotCO-004".data] = "OSCC_MainCA-002".data ∧
    spec_next_num (studyCodeOf (some "OSCC_THESIS".data)) (grpCodeOf "Case".data)
      ["OSCC_PilotCO-004".data] = 1 := by
  have h1 := claim_C4_generate_research_id (some "OSCC_THESIS".data) "Case".data
    "MAIN".data ["OSCC_PilotCA-001".data, "OSCC_PilotCO-004".data]
  have h2 := claim_C4_generate_research_id (some "OSCC_THESIS".data) "Case".data
    "MAIN".data ["OSCC_PilotCO-004".data]
  exact ⟨by rw [h1.1]; decide, h2.2.2.2 (by decide)⟩

/-- Invariant induction for sequential generation: starting from any
accumulated list whose matching numbers fold-max to k, the j-th generated id
matches with number k+j+1 and avoids everything generated or present before
it. -/
theorem genAccum_spec (active : Option PyStr) (group : PyStr)
    (cohorts : List PyStr) :
    ∀ (acc : List PyStr) (k : Nat),
      (acc.filterMap (matchNum (studyCodeOf active) (grpCodeOf group))).foldl max 0 = k →
      (genAccum active group acc cohorts).length = cohorts.length ∧
      (∀ j rid, (genAccum active group acc cohorts).get? j = some rid →
        matchNum (studyCodeOf active) (grpCodeOf group) rid = some (k + j + 1) ∧
        rid ∉ acc ++ (genAccum active group acc cohorts).take j) := by
  induction cohorts with
  | nil =>
    intro acc k hk
    refine ⟨rfl, ?_⟩
    intro j rid hj
    simp [genAccum] at hj
  | cons c cs ih =>
    intro acc k hk
    have hgen : generate_research_id active group c acc =
        studyCodeOf active ++ ['_'] ++ cohortTagOf c ++ grpCodeOf group ++
          ['-'] ++ padRepr 3 (k + 1) := by
      rw [generate_research_id_eq, hk]
    have hmatch : matchNum (studyCodeOf active) (grpCodeOf group)
        (generate_research_id active group c acc) = some (k + 1) := by
      rw [hgen]
      exact matchNum_generated _ _ _ _
    have hacc' : ((acc ++ [generate_research_id active group c acc]).filterMap
        (matchNum (studyCodeOf active) (grpCodeOf group))).foldl max 0 = k + 1 := by
      rw [List.filterMap_append]
      have hsing : List.filterMap (matchNum (studyCodeOf active) (grpCodeOf group))
          [generate_research_id active group c acc] = [k + 1] := by
        simp [hmatch]
      rw [hsing, foldl_max_append_singleton, hk]
      omega
    obtain ⟨ihlen, ihP⟩ := ih (acc ++ [generate_research_id active group c acc]) (k + 1) hacc'
    have hcons : genAccum active group acc (c :: cs) =
        generate_research_id active group c acc ::
          genAccum active group (acc ++ [generate_research_id active group c acc]) cs := by
      simp [genAccum]
    refine ⟨by rw [hcons]; simp [ihlen], ?_⟩
    intro j rid hj
    rw [hcons] at hj
    cases j with
    | zero =>
      have hr : rid = generate_research_id active group c acc := by
        simpa using hj.symm
      subst hr
      refine ⟨by simpa using hmatch, ?_⟩
      rw [hcons]
      simp only [List.take_zero, List.append_nil]
      intro hmem
      have hin : (k + 1) ∈ acc.filterMap
          (matchNum (studyCodeOf active) (grpCodeOf group)) :=
        List.mem_filterMap.mpr ⟨_, hmem, hmatch⟩
      have := mem_le_foldl_max 0 hin
      rw [hk] at this
      omega
    | succ j =>
      have hj' : (genAccum active group
          (acc ++ [generate_research_id active group c acc]) cs).get? j = some rid := by
        simpa using hj
      obtain ⟨hm, hn⟩ := ihP j rid hj'
      refine ⟨by rw [hm]; congr 1; omega, ?_⟩
      rw [hcons]
      simp only [List.take_succ_cons]
      intro hmem
      apply hn
      have heq : acc ++ generate_research_id active group c acc ::
          List.take j (genAccum active group
            (acc ++ [generate_research_id active group c acc]) cs) =
          (acc ++ [generate_research_id active group c acc]) ++
          List.take j (genAccum active group
            (acc ++ [generate_research_id active group c acc]) cs) := by
        simp
      rw [← heq]
      exact hmem

/-- Claim C5: starting from a list with no matching id, N sequential
generations with accumulating existing ids (arbitrary cohort interleaving)
produce N ids whose parsed trailing numbers are exactly 1, 2, …, N in order
(hence distinct and strictly increasing from 001), pairwise distinct, and
never colliding with the existing-ids list passed to each call. -/
theorem claim_C5_sequential_generation (active : Option PyStr) (group : PyStr)
    (cohorts init : List PyStr)
    (hinit : ∀ rid ∈ init,
      matchNum (studyCodeOf active) (grpCodeOf group) rid = none) :
    (genAccum active group init cohorts).length = cohorts.length ∧
    (∀ j rid, (genAccum active group init cohorts).get? j = some rid →
      pyToNat? (afterLast '-' rid) = some (j + 1)) ∧
    (genAccum active group init cohorts).Nodup ∧
    (∀ j rid, (genAccum active group init cohorts).get? j = some rid →
      rid ∉ init ++ (genAccum active group init cohorts).take j) := by
  have h0 : (init.filterMap (matchNum (studyCodeOf active) (grpCodeOf group))).foldl max 0 = 0 := by
    rw [List.filterMap_eq_nil.mpr hinit]
    rfl
  obtain ⟨hlen, hP⟩ := genAccum_spec active group cohorts init 0 h0
  refine ⟨hlen, ?_, ?_, fun j rid hj => (hP j rid hj).2⟩
  · intro j rid hj
    have := matchNum_some_parse (hP j rid hj).1
    simpa using this
  · apply List.nodup_iff_injective_get.mpr
    intro i j hij
    have hi := (hP i.1 ((genAccum active group init cohorts).get i)
      (List.get?_eq_get i.2)).1
    have hj := (hP j.1 ((genAccum active group init cohorts).get j)
      (List.get?_eq_get j.2)).1
    apply Fin.ext
    rw [hij] at hi
    rw [hi] at hj
    have := Option.some_inj.mp hj
    omega

/-- Witness for claim C5 at concrete inputs: two generations for study OSCC,
group Case, with cohort varying PILOT then MAIN, against a pre-existing
non-matching Control id. -/
theorem claim_C5_sequential_generation_witness :
    (genAccum (some "OSCC_THESIS".data) "Case".data ["OSCC_PilotCO-001".data]
      ["PILOT".data, "MAIN".data]).length = 2 ∧
    (genAccum (some "OSCC_THESIS".data) "Case".data ["OSCC_PilotCO-001".data]
      ["PILOT".data, "MAIN".data]).Nodup := by
  have h := claim_C5_sequential_generation (some "OSCC_THESIS".data) "Case".data
    ["PILOT".data, "MAIN".data] ["OSCC_PilotCO-001".data] (by decide)
  exact ⟨h.1, h.2.2.1⟩

theorem cand_injective (base : PyStr) :
    Function.Injective (fun i => base ++ ['-'] ++ padRepr 2 i) := by
  intro a b h
  apply padRepr_injective 2
  exact List.append_cancel_left h

theorem exists_free_cand (base : PyStr) (existing : List PyStr) :
    ∃ j, j < existing.length + 1 ∧
      (base ++ ['-'] ++ padRepr 2 (2 + j)) ∉ existing := by
  by_contra hcon
  push_neg at hcon
  have hall : ∀ j ∈ List.range (existing.length + 1),
      (base ++ ['-'] ++ padRepr 2 (2 + j)) ∈ existing := by
    intro j hj
    exact hcon j (List.mem_range.mp hj)
  have hinj : Function.Injective (fun j => base ++ ['-'] ++ padRepr 2 (2 + j)) := by
    intro a b h
    have := cand_injective base h
    omega
  have hnodup : ((List.range (existing.length + 1)).map
      (fun j => base ++ ['-'] ++ padRepr 2 (2 + j))).Nodup :=
    (List.nodup_range _).map hinj
  have hsub : ((List.range (existing.length + 1)).map
      (fun j => base ++ ['-'] ++ padRepr 2 (2 + j))).toFinset ⊆ existing.toFinset := by
    intro x hx
    rw [List.mem_toFinset] at hx ⊢
    obtain ⟨j, hj, hx⟩ := List.mem_map.mp hx
    subst hx
    exact hall j hj
  have h1 : ((List.range (existing.length + 1)).map
      (fun j => base ++ ['-'] ++ padRepr 2 (2 + j))).toFinset.card =
      existing.length + 1 := by
    rw [List.toFinset_card_of_nodup hnodup]
    simp
  have h2 := Finset.card_le_card hsub
  have h3 := List.toFinset_card_le existing
  omega

theorem probeSuffix_spec (base : PyStr) (existing : List PyStr) :
    ∀ fuel i, (∃ j, j < fuel ∧ (base ++ ['-'] ++ padRepr 2 (i + j)) ∉ existing) →
      ∃ k, i ≤ k ∧ probeSuffix base existing i fuel = base ++ ['-'] ++ padRepr 2 k ∧
        (base ++ ['-'] ++ padRepr 2 k) ∉ existing ∧
        ∀ m, i ≤ m → m < k → (base ++ ['-'] ++ padRepr 2 m) ∈ existing := by
  intro fuel
  induction fuel with
  | zero =>
    intro i ⟨j, hj, _⟩
    omega
  | succ f ihf =>
    intro i ⟨j, hj, hfree⟩
    by_cases hc : (base ++ ['-'] ++ padRepr 2 i) ∈ existing
    · have hj0 : j ≠ 0 := by
        intro h0
        subst h0
        rw [Nat.add_zero] at hfree
        exact hfree hc
      obtain ⟨j', rfl⟩ : ∃ j', j = j' + 1 := ⟨j - 1, by omega⟩
      have hex : ∃ j2, j2 < f ∧ (base ++ ['-'] ++ padRepr 2 (i + 1 + j2)) ∉ existing := by
        refine ⟨j', by omega, ?_⟩
        have : i + 1 + j' = i + (j' + 1) := by omega
        rw [this]
        exact hfree
      obtain ⟨k, hk1, hk2, hk3, hk4⟩ := ihf (i + 1) hex
      refine ⟨k, by omega, ?_, hk3, ?_⟩
      · simp only [probeSuffix, if_pos hc]
        exact hk2
      · intro m hm1 hm2
        rcases Nat.eq_or_lt_of_le hm1 with hm | hm
        · rw [← hm]
          exact hc
        · exact hk4 m (by omega) hm2
    · refine ⟨i, le_rfl, ?_, hc, ?_⟩
      · simp only [probeSuffix, if_neg hc]
      · intro m h1 h2
        omega

/-- Claim C8: default_sample_id returns the plain base research-id/sample-type
string when unused, and otherwise the base extended with the smallest unused
two-digit suffix starting from 02; in particular the three documented probe
examples hold. -/
theorem claim_C8_default_sample_id (research_id sample_type : PyStr)
    (existing_ids : List PyStr) :
    ((research_id ++ ['-'] ++ sample_type) ∉ existing_ids →
      default_sample_id research_id sample_type existing_ids =
        research_id ++ ['-'] ++ sample_type) ∧
    ((research_id ++ ['-'] ++ sample_type) ∈ existing_ids →
      ∃ k, 2 ≤ k ∧
        default_sample_id research_id sample_type existing_ids =
          (research_id ++ ['-'] ++ sample_type) ++ ['-'] ++ padRepr 2 k ∧
        ((research_id ++ ['-'] ++ sample_type) ++ ['-'] ++ padRepr 2 k) ∉ existing_ids ∧
        ∀ m, 2 ≤ m → m < k →
          ((research_id ++ ['-'] ++ sample_type) ++ ['-'] ++ padRepr 2 m) ∈ existing_ids) ∧
    default_sample_id "P1".data "WS".data [] = "P1-WS".data ∧
    default_sample_id "P1".data "WS".data ["P1-WS".data] = "P1-WS-02".data ∧
    default_sample_id "P1".data "WS".data ["P1-WS".data, "P1-WS-02".data] =
      "P1-WS-03".data := by
  refine ⟨?_, ?_, by decide, by decide, by decide⟩
  · intro h
    simp only [default_sample_id, if_neg h]
  · intro h
    have hex : ∃ j, j < existing_ids.length + 1 ∧
        ((research_id ++ ['-'] ++ sample_type) ++ ['-'] ++ padRepr 2 (2 + j)) ∉ existing_ids :=
      exists_free_cand _ existing_ids
    obtain ⟨k, hk1, hk2, hk3, hk4⟩ :=
      probeSuffix_spec (research_id ++ ['-'] ++ sample_type) existing_ids
        (existing_ids.length + 1) 2 hex
    refine ⟨k, hk1, ?_, hk3, hk4⟩
    simp only [default_sample_id, if_pos h]
    exact hk2

/-- Witness for claim C8 at the documented probe inputs. -/
theorem claim_C8_default_sample_id_witness :
    default_sample_id "P1".data "WS".data [] = "P1-WS".data ∧
    (∃ k, 2 ≤ k ∧
      default_sample_id "P1".data "WS".data ["P1-WS".data] =
        ("P1".data ++ ['-'] ++ "WS".data) ++ ['-'] ++ padRepr 2 k ∧
      (("P1".data ++ ['-'] ++ "WS".data) ++ ['-'] ++ padRepr 2 k) ∉
        (["P1-WS".data] : List PyStr) ∧
      ∀ m, 2 ≤ m → m < k →
        (("P1".data ++ ['-'] ++ "WS".data) ++ ['-'] ++ padRepr 2 m) ∈
          (["P1-WS".data] : List PyStr)) :=
  ⟨(claim_C8_default_sample_id "P1".data "WS".data []).2.2.1,
   (claim_C8_default_sample_id "P1".data "WS".data ["P1-WS".data]).2.1 (by decide)⟩

theorem statusLabel_rank_mono :
    ∀ l f h s l' f' h' s' : Bool,
      (l = true → l' = true) → (f = true → f' = true) →
      (h = true → h' = true) → (s = true → s' = true) →
      stageRank (statusLabel l f h s) ≤ stageRank (statusLabel l' f' h' s') := by
  decide

theorem hasHistory_mono {ch ch' : List HistRow} {rid : PyStr}
    (hsub : ch.Sublist ch') (h : hasHistoryOf ch rid = true) :
    hasHistoryOf ch' rid = true := by
  simp only [hasHistoryOf, List.any_eq_true] at h ⊢
  obtain ⟨r, hr, hp⟩ := h
  exact ⟨r, hsub.subset hr, hp⟩

theorem hasSamples_mono {sm sm' : List SampleRow} {rid : PyStr}
    (hsub : sm.Sublist sm') (h : (!(smOf sm rid).isEmpty) = true) :
    (!(smOf sm' rid).isEmpty) = true := by
  simp only [Bool.not_eq_true', List.isEmpty_eq_false_iff_exists_mem] at h ⊢
  obtain ⟨r, hr⟩ := h
  exact ⟨r, (hsub.filter _).subset hr⟩

theorem inDeepFreezer_mono {sm sm' : List SampleRow} {rid : PyStr}
    (hsub : sm.Sublist sm') (h : inDeepFreezerOf sm rid = true) :
    inDeepFreezerOf sm' rid = true := by
  simp only [inDeepFreezerOf, smOf, List.any_eq_true] at h ⊢
  obtain ⟨r, hr, hp⟩ := h
  exact ⟨r, (hsub.filter _).subset hr, hp⟩

theorem inLab_mono {sm sm' : List SampleRow} {lb lb' : List LabRow} {rid : PyStr}
    (hsm : sm.Sublist sm') (hlb : lb.Sublist lb')
    (h : inLabOf sm lb rid = true) : inLabOf sm' lb' rid = true := by
  simp only [inLabOf, Bool.and_eq_true, Bool.not_eq_true',
    List.isEmpty_eq_false_iff_exists_mem, List.any_eq_true] at h ⊢
  obtain ⟨⟨x, hx⟩, l, hl, s, hs, hp⟩ := h
  have hids : sampleIdsOf sm rid ⊆ sampleIdsOf sm' rid := by
    intro y hy
    simp only [sampleIdsOf, List.mem_map] at hy ⊢
    obtain ⟨r, hr, hy⟩ := hy
    exact ⟨r, (hsm.filter _).subset hr, hy⟩
  exact ⟨⟨x, hids hx⟩, l, hlb.subset hl, s, hids hs, hp⟩

/-- Claim C9: the main pipeline stage never moves down the ladder when rows
are only added to the case-history, samples or lab tables; in particular a
participant with one sample row, no history and no lab rows is at
"Samples collected", and adding a lab row referencing that sample moves it to
"In lab / analysis". -/
theorem claim_C9_status_monotone :
    (∀ (ch ch' : List HistRow) (sm sm' : List SampleRow) (lb lb' : List LabRow)
       (rid : PyStr), ch.Sublist ch' → sm.Sublist sm' → lb.Sublist lb' →
       stageRank (compute_status ch sm lb rid).1 ≤
         stageRank (compute_status ch' sm' lb' rid).1) ∧
    (∀ (rid sid : PyStr),
       (compute_status [] [⟨rid, sid, false⟩] [] rid).1 = "Samples collected".data ∧
       (compute_status [] [⟨rid, sid, false⟩] [⟨sid⟩] rid).1 =
         "In lab / analysis".data) := by
  constructor
  · intro ch ch' sm sm' lb lb' rid hch hsm hlb
    exact statusLabel_rank_mono _ _ _ _ _ _ _ _
      (inLab_mono hsm hlb) (inDeepFreezer_mono hsm)
      (hasHistory_mono hch) (hasSamples_mono hsm)
  · intro rid sid
    constructor
    · simp [compute_status, statusLabel, hasHistoryOf, smOf, sampleIdsOf,
        inDeepFreezerOf, inLabOf]
    · simp [compute_status, statusLabel, hasHistoryOf, smOf, sampleIdsOf,
        inDeepFreezerOf, inLabOf]

/-- Witness for claim C9 at concrete tables. -/
theorem claim_C9_status_monotone_witness :
    stageRank (compute_status [] [⟨"R1".data, "R1-WS".data, false⟩] [] "R1".data).1 ≤
      stageRank (compute_status [] [⟨"R1".data, "R1-WS".data, false⟩]
        [⟨"R1-WS".data⟩] "R1".data).1 ∧
    (compute_status [] [⟨"R1".data, "R1-WS".data, false⟩] [] "R1".data).1 =
      "Samples collected".data :=
  ⟨claim_C9_status_monotone.1 [] [] _ _ [] [⟨"R1-WS".data⟩] "R1".data
      (List.Sublist.refl []) (List.Sublist.refl _) (List.nil_sublist _),
   (claim_C9_status_monotone.2 "R1".data "R1-WS".data).1⟩

/-- Claim C1 fails on the code: the confirmed delete removes the participant
row, but the cascade's hard-coded table names (research_eligibility,
research_consent, research_panel_risk) differ from the names the eligibility,
consent and panel-risk pages persist to (eligibility, research_consents,
risk_results), so R1's rows in those tables survive the delete. -/
theorem claim_C1_cascade_misses_page_tables :
    (delete_research_participant c1_store "R1".data) "research_participants" = [] ∧
    (delete_research_participant c1_store "R1".data) "eligibility" =
      [⟨"R1".data, 1⟩] ∧
    (delete_research_participant c1_store "R1".data) "research_consents" =
      [⟨"R1".data, 2⟩] ∧
    (delete_research_participant c1_store "R1".data) "risk_results" =
      [⟨"R1".data, 3⟩] := by
  decide

/-- Counterexample to claim C6: deleting clinical patient CLIN-0001 removes
the patient row but leaves every dependent visit, image and treatment row
referencing CLIN-0001 in place — the handler has no cascade. -/
theorem claim_C6_counterexample :
    (delete_clinical_patient c6_store "CLIN-0001".data) "clinical_patients" = [] ∧
    (delete_clinical_patient c6_store "CLIN-0001".data) "clinical_visits" =
      [⟨"CLIN-0001".data, 1⟩] ∧
    (delete_clinical_patient c6_store "CLIN-0001".data) "clinical_images_reports" =
      [⟨"CLIN-0001".data, 2⟩] ∧
    (delete_clinical_patient c6_store "CLIN-0001".data) "clinical_treatments" =
      [⟨"CLIN-0001".data, 3⟩] := by
  decide

/-- Amended claim C6: deleting a clinical patient removes exactly that
patient's rows from the clinical_patients table and leaves every other table
— including the dependent visit, image and treatment tables — unchanged. -/
theorem claim_C6_amended_no_cascade (st : Store) (cid : PyStr) :
    (∀ r : RRow, r ∈ (delete_clinical_patient st cid) "clinical_patients" ↔
      r ∈ st "clinical_patients" ∧ r.rid ≠ cid) ∧
    (∀ tbl : String, tbl ≠ "clinical_patients" →
      (delete_clinical_patient st cid) tbl = st tbl) := by
  constructor
  · intro r
    simp [delete_clinical_patient, setTbl, List.mem_filter]
  · intro tbl h
    simp [delete_clinical_patient, setTbl, h]

/-- Witness for the amended claim C6 at a concrete store. -/
theorem claim_C6_amended_no_cascade_witness :
    (⟨"CLIN-0001".data, 1⟩ : RRow) ∈
      (delete_clinical_patient c6_store "CLIN-0001".data) "clinical_visits" ∧
    (⟨"CLIN-0001".data, 0⟩ : RRow) ∉
      (delete_clinical_patient c6_store "CLIN-0001".data) "clinical_patients" := by
  have h := claim_C6_amended_no_cascade c6_store "CLIN-0001".data
  constructor
  · rw [h.2 "clinical_visits" (by decide)]
    decide
  · intro hmem
    exact ((h.1 _).mp hmem).2 rfl

/-- Claim C10: saving the eligibility record for a selected registered
participant drops every persisted row whose ResearchID is not registered,
keeps other registered participants' rows unchanged (same rows, same order),
and leaves exactly the new row for the selected participant. -/
theorem claim_C10_elig_save_frame (participants : List PyStr) (elig : List RRow)
    (selected : PyStr) (payload : Nat) (hsel : selected ∈ participants) :
    (∀ r ∈ elig, r.rid ∉ participants →
      r ∉ elig_page_save participants elig selected payload) ∧
    (∀ other ∈ participants, other ≠ selected →
      (elig_page_save participants elig selected payload).filter
        (fun r => decide (r.rid = other)) =
      elig.filter (fun r => decide (r.rid = other))) ∧
    (elig_page_save participants elig selected payload).filter
      (fun r => decide (r.rid = selected)) = [⟨selected, payload⟩] := by
  refine ⟨?_, ?_, ?_⟩
  · intro r _ hnp hmem
    simp only [elig_page_save, List.mem_append, List.mem_filter,
      decide_eq_true_eq, List.mem_singleton] at hmem
    rcases hmem with ⟨⟨_, hp⟩, _⟩ | hr
    · exact hnp hp
    · subst hr
      exact hnp hsel
  · intro other hop hos
    simp only [elig_page_save, List.filter_append, List.filter_filter]
    have hnew : List.filter (fun r => decide (r.rid = other))
        [(⟨selected, payload⟩ : RRow)] = [] := by
      simp [List.filter, hos.symm]
    rw [hnew, List.append_nil]
    apply List.filter_congr
    intro r _
    by_cases h : r.rid = other
    · simp only [h, decide_eq_true_eq]
      simp [hop, hos]
    · simp [h]
  · simp only [elig_page_save, List.filter_append, List.filter_filter]
    have hA : List.filter (fun r =>
        decide (r.rid = selected) && (decide (r.rid ≠ selected) &&
          decide (r.rid ∈ participants))) elig = [] := by
      apply List.filter_eq_nil.mpr
      intro r _
      by_cases h : r.rid = selected <;> simp [h]
    rw [hA]
    simp [List.filter]

/-- Witness for claim C10 at a concrete store: R9 is no longer registered and
its row is purged; R1's row survives untouched; R2's row is replaced. -/
theorem claim_C10_elig_save_frame_witness :
    (⟨"R9".data, 9⟩ : RRow) ∉
      elig_page_save ["R1".data, "R2".data]
        [⟨"R1".data, 1⟩, ⟨"R9".data, 9⟩] "R2".data 5 ∧
    (elig_page_save ["R1".data, "R2".data]
        [⟨"R1".data, 1⟩, ⟨"R9".data, 9⟩] "R2".data 5).filter
      (fun r => decide (r.rid = "R1".data)) = [⟨"R1".data, 1⟩] ∧
    (elig_page_save ["R1".data, "R2".data]
        [⟨"R1".data, 1⟩, ⟨"R9".data, 9⟩] "R2".data 5).filter
      (fun r => decide (r.rid = "R2".data)) = [⟨"R2".data, 5⟩] := by
  have h := claim_C10_elig_save_frame ["R1".data, "R2".data]
    [⟨"R1".data, 1⟩, ⟨"R9".data, 9⟩] "R2".data 5 (by decide)
  exact ⟨h.1 ⟨"R9".data, 9⟩ (by decide) (by decide),
    h.2.1 "R1".data (by decide) (by decide), h.2.2⟩

end OSCC
